import Mathlib

/-!
Shallow embedding of the process-lifecycle and log-streaming controller of
`api_server.py` (class `MacroState`, the worker stream redirection
`_StreamToQueue`, and the log broadcast `_append_log`), together with proofs
of the behavioural properties claimed for it.

External effects (process liveness, queue contents observed during a call,
spawned pids, clock reads) are passed in explicitly as observation arguments,
so every controller method becomes a pure state transformer.
-/

namespace SrtMacro

/-- A status-channel message. The worker sends dicts
`\x7b"status": "error", "message": ...\x7d` or `\x7b"status": "finished"\x7d`;
anything else (a non-dict, or an unrecognised status) is `other`. -/
inductive StatusMsg where
  | error (message : Option String)
  | finished
  | other
deriving DecidableEq, Repr

/-- The parameter record stored in `current_params` by `MacroState.start`. -/
structure Params where
  arrival : Option String
  departure : Option String
  from_train_number : Option String
  to_train_number : Option String
  standard_date : Option String
  standard_time : Option String
  seat_types : Option String
deriving DecidableEq, Repr

/-- A handle to a spawned worker process (`mp.Process`); liveness and exit
code are sampled from the environment at each observation. -/
structure ProcHandle where
  pid : Nat
deriving DecidableEq, Repr

/-- The mutable fields of `MacroState` (`__init__`). The two queue fields
record only whether a queue reference is held (`self._status_q is not None`);
the messages sitting in the queue at a given call are an observation. -/
structure MacroState where
  proc : Option ProcHandle
  started_at : Option Nat
  last_error : Option String
  status_q : Bool
  logs_q : Bool
  current_params : Option Params
deriving DecidableEq, Repr

/-- The freshly constructed controller state (`MacroState.__init__`). -/
def initState : MacroState :=
  { proc := none, started_at := none, last_error := none,
    status_q := false, logs_q := false, current_params := none }

/-- Python `m or fallback` on an optional string: `None` and `""` are falsy. -/
def pyOr (m : Option String) (fallback : String) : String :=
  match m with
  | some s => if s = "" then fallback else s
  | none => fallback

/-- The whitespace characters stripped by Python `str.strip()`. -/
def isPySpace (c : Char) : Bool :=
  c = ' ' || c = '\t' || c = '\n' || c = '\r' || c = '\x0b' || c = '\x0c'

/-- Python `str.strip()` on a character list. -/
def pyStripList (l : List Char) : List Char :=
  ((l.dropWhile isPySpace).reverse.dropWhile isPySpace).reverse

/-- Python `str.strip()`. -/
def pyStrip (s : String) : String :=
  String.mk (pyStripList s.data)

/-- Python `a.startswith(pat)` on character lists (second argument is the
pattern). -/
def pyStartsWith : List Char → List Char → Bool
  | _, [] => true
  | [], _ :: _ => false
  | c :: cs, d :: ds => c = d && pyStartsWith cs ds

/-- Python `s.split('\n')` on a character list: the segments between the
newline characters, in order (`n` separators give `n + 1` segments). -/
def pySplitNlList : List Char → List (List Char)
  | [] => [[]]
  | c :: rest =>
      match pySplitNlList rest with
      | [] => [[]]
      | p :: ps => if c = '\n' then [] :: p :: ps else (c :: p) :: ps

/-- Python `s.split('\n')`. -/
def pySplitNl (s : String) : List String :=
  (pySplitNlList s.data).map String.mk

/-- `line.strip().startswith('Traceback')` or `line.strip().startswith('File "')`:
the two diagnostic markers at which `_clean_error_message` stops. -/
def isTracebackLine (line : String) : Bool :=
  pyStartsWith (pyStrip line).data "Traceback".data ||
    pyStartsWith (pyStrip line).data "File \"".data

/-- The generic fallback error text returned when nothing remains. -/
def FALLBACK_ERROR : String := "실행 중 오류가 발생했습니다."

/-- The trailing-blank-line pop loop of `_clean_error_message`
(`while cleaned_lines and not cleaned_lines[-1].strip(): pop`). -/
def dropTrailingBlank (lines : List String) : List String :=
  (lines.reverse.dropWhile (fun l => pyStrip l = "")).reverse

/-- Python `'\n'.join(lines)`. -/
def joinNl : List String → String
  | [] => ""
  | [l] => l
  | l :: l2 :: rest => l ++ "\n" ++ joinNl (l2 :: rest)

/-- `MacroState._clean_error_message`: split on newlines, keep the lines before
the first traceback marker, pop trailing blank lines, join, strip, and fall
back to the generic text if the result is empty. -/
def clean_error_message (error_msg : String) : String :=
  let lines := pySplitNl error_msg
  let cleaned_lines := lines.takeWhile (fun l => !isTracebackLine l)
  let cleaned_lines := dropTrailingBlank cleaned_lines
  let result := pyStrip (joinNl cleaned_lines)
  if result = "" then FALLBACK_ERROR else result

/-- The cleaning function exactly as the claim words it: the lines preceding
the first marker line with trailing blank lines trimmed (and nothing more),
falling back to the generic text when no line remains. Spec-side definition,
compared against `clean_error_message`. -/
def clean_error_message_claimed (error_msg : String) : String :=
  let lines := pySplitNl error_msg
  let kept := dropTrailingBlank (lines.takeWhile (fun l => !isTracebackLine l))
  if kept.isEmpty then FALLBACK_ERROR else joinNl kept

/-- The state clearing performed on every transition to idle: the five run
fields `proc`, `started_at`, `_status_q`, `_logs_q`, `current_params` are
reset; `last_error` is not touched. -/
def clearRun (s : MacroState) : MacroState :=
  { s with proc := none, started_at := none, status_q := false,
           logs_q := false, current_params := none }

/-- One drained message inside the dead-process drain loops of `running` and
of `refresh`'s dead branch: only an `error` message updates `last_error`;
`finished` and anything else pass. -/
def drainOnDeadStep (s : MacroState) (msg : StatusMsg) : MacroState :=
  match msg with
  | .error m =>
      { s with last_error := some (clean_error_message (pyOr m "실행 중 오류 발생")) }
  | _ => s

/-- The `running` property. `alive` is what `self.proc.is_alive()` returns at
this observation; `drained` is the content of the status queue drained when
the process is found dead. Returns the answer and the (possibly self-healed)
state. -/
def runningCheck (alive : Bool) (drained : List StatusMsg) (s : MacroState) :
    Bool × MacroState :=
  match s.proc with
  | none => (false, s)
  | some _ =>
      if alive then (true, s)
      else
        let s := if s.status_q then drained.foldl drainOnDeadStep s else s
        (false, clearRun s)

/-- Rendering of the Python value `exitcode` inside the f-string
`f"... exitcode=\x7bexitcode\x7d"`: `None` prints as `None`. -/
def exitcodeRepr : Option Int → String
  | none => "None"
  | some n => toString n

/-- Everything the environment decides during one `start` call. -/
structure StartWorld where
  /-- `is_alive()` of a previously recorded process, for the initial
  `if self.running` check. -/
  preAlive : Bool
  /-- status-queue content drained if that process is found dead. -/
  preDrained : List StatusMsg
  /-- pid of the process spawned by `mp.Process(...).start()`. -/
  newPid : Nat
  /-- `time.time()` at launch. -/
  now : Nat
  /-- first message to arrive on the status queue within the 8 s wait;
  `none` means the wait timed out. -/
  firstMsg : Option StatusMsg
  /-- `is_alive()` of the spawned process at the post-timeout check. -/
  postAlive : Bool
  /-- status-queue content drained at the post-timeout check if dead. -/
  postDrained : List StatusMsg
  /-- OS exit code of the spawned process if it died. -/
  deadExit : Int
deriving Repr

/-- `MacroState.start`. -/
def start (params : Params) (w : StartWorld) (s : MacroState) :
    Bool × MacroState :=
  let r := runningCheck w.preAlive w.preDrained s
  if r.1 then (false, r.2)
  else
    let s := r.2
    let s := { s with last_error := none, current_params := some params }
    let s := { s with proc := some ⟨w.newPid⟩, started_at := some w.now,
                      status_q := true, logs_q := true }
    match w.firstMsg with
    | none =>
        -- the 8 s wait raised Empty; re-check liveness via `self.running`
        let r2 := runningCheck w.postAlive w.postDrained s
        let s := r2.2
        if !r2.1 then
          -- `running` has already set `self.proc = None`, so the
          -- `self.proc.exitcode if self.proc else None` read yields `None`
          let exitcode : Option Int := s.proc.map (fun _ => w.deadExit)
          let e := some ("프로세스가 즉시 종료되었습니다. exitcode=" ++ exitcodeRepr exitcode)
          let s := { s with last_error := e }
          let s := { s with proc := none, started_at := none,
                            status_q := false, logs_q := false }
          (false, s)
        else (true, s)
    | some msg =>
        match msg with
        | .error m =>
            let e := some (clean_error_message (pyOr m "시작 중 알 수 없는 오류"))
            let s := { s with last_error := e }
            (false, clearRun s)
        | .finished =>
            let e := some "작업이 즉시 종료되었습니다. 조건을 확인하세요."
            let s := { s with last_error := e }
            (false, clearRun s)
        | .other => (true, s)

/-- `MacroState.stop`: the controller's own state never keeps the process on
this path, and the log ring buffer (separate `LogState` below) is not
referenced by `stop` at all. -/
def stop (s : MacroState) : Bool × MacroState :=
  match s.proc with
  | none => (false, s)
  | some _ => (true, clearRun s)

/-- Externally visible side effects of a call. -/
inductive Action where
  | terminate (pid : Nat)
deriving DecidableEq, Repr

/-- One message of `refresh`'s main drain loop: an `error` records the cleaned
message, terminates the process if still alive, and clears; `finished`
terminates if still alive and clears; anything else is skipped. -/
def refreshStep (alive : Bool) (sa : MacroState × List Action) (msg : StatusMsg) :
    MacroState × List Action :=
  match msg with
  | .error m =>
      let e := some (clean_error_message (pyOr m "실행 중 오류 발생"))
      let s := { sa.1 with last_error := e }
      let acts := match s.proc with
        | some p => if alive then sa.2 ++ [Action.terminate p.pid] else sa.2
        | none => sa.2
      (clearRun s, acts)
  | .finished =>
      let acts := match sa.1.proc with
        | some p => if alive then sa.2 ++ [Action.terminate p.pid] else sa.2
        | none => sa.2
      (clearRun sa.1, acts)
  | .other => sa

/-- `MacroState.refresh`: if the recorded process is dead and a queue reference
remains, drain (errors only) and clear; otherwise drain the status queue with
full error/finished handling. `drained` is the queue content at this call. -/
def refresh (alive : Bool) (drained : List StatusMsg) (s : MacroState) :
    MacroState × List Action :=
  if s.proc.isSome && !alive then
    if s.status_q || s.logs_q then
      (clearRun (drained.foldl drainOnDeadStep s), [])
    else
      -- falls through, but `self._status_q` is `None` here, so the main
      -- drain loop is a no-op
      (s, [])
  else if s.status_q then
    drained.foldl (refreshStep alive) (s, [])
  else (s, [])

/-- The JSON rendered by the `/status` endpoint. -/
structure StatusView where
  running : Bool
  pid : Option Nat
  started_at : Option Nat
  last_error : Option String
deriving DecidableEq, Repr

/-- The `/status` endpoint: `STATE.refresh()` then a dict whose `running`
entry evaluates `STATE.running` (possibly self-healing) before the remaining
fields are read. -/
def statusCall (refreshAlive : Bool) (refreshDrained : List StatusMsg)
    (runAlive : Bool) (runDrained : List StatusMsg) (s : MacroState) :
    StatusView × MacroState :=
  let s1 := (refresh refreshAlive refreshDrained s).1
  let r := runningCheck runAlive runDrained s1
  let s2 := r.2
  (⟨r.1, s2.proc.map (fun p => p.pid), s2.started_at, s2.last_error⟩, s2)

/-! ## Log buffer, broadcast, and the worker's stream redirection -/

/-- `deque(maxlen=500)` capacity of `self._log_buffer`. -/
def LOG_BUFFER_MAXLEN : Nat := 500

/-- `asyncio.Queue(maxsize=1000)` capacity used by `subscribe`. -/
def SUBSCRIBER_MAXSIZE : Nat := 1000

/-- The last `n` elements of a list. -/
def takeLast (n : Nat) (l : List α) : List α :=
  (l.reverse.take n).reverse

/-- `collections.deque(maxlen=n).append`: the new element goes to the right
and the oldest elements are discarded from the left once over capacity. -/
def dequeAppendMax (maxlen : Nat) (buf : List String) (line : String) :
    List String :=
  takeLast maxlen (buf ++ [line])

/-- `_safe_put`: `q.put_nowait(item)` with the `QueueFull` exception swallowed,
so a full queue drops this one item and keeps its content. -/
def safe_put (maxsize : Nat) (q : List String) (item : String) : List String :=
  if q.length < maxsize then q ++ [item] else q

/-- The log-side state: the ring buffer and each live subscriber's queue. -/
structure LogState where
  log_buffer : List String
  listeners : List (List String)
deriving DecidableEq, Repr

/-- `MacroState._append_log`: append to the ring buffer, then best-effort
deliver to a snapshot of the subscriber list. -/
def append_log (st : LogState) (line : String) : LogState :=
  { log_buffer := dequeAppendMax LOG_BUFFER_MAXLEN st.log_buffer line,
    listeners := st.listeners.map (fun q => safe_put SUBSCRIBER_MAXSIZE q line) }

/-- The state of one `_StreamToQueue` instance: the pending partial line
`self._buf` and the lines enqueued on the logs queue so far. -/
structure StreamToQueue where
  buf : String
  q : List String
deriving DecidableEq, Repr

/-- `_StreamToQueue.write(s)`: extend the pending buffer, then repeatedly split
off complete lines at `"\n"`, enqueueing only the non-empty ones (`if line:`);
the text after the last newline stays pending. -/
def streamWrite (st : StreamToQueue) (s : String) : StreamToQueue :=
  let parts := pySplitNl (st.buf ++ s)
  { buf := parts.getLastD "",
    q := st.q ++ parts.dropLast.filter (fun l => l ≠ "") }

/-! ## Concrete fixtures used by witnesses and counterexamples -/

/-- A concrete parameter record. -/
def pEx : Params :=
  ⟨some "A", some "B", some "1", some "3", some "20250101", some "10", some "both"⟩

/-- A controller state with a recorded run (pid 7). -/
def sRun : MacroState :=
  { proc := some ⟨7⟩, started_at := some 10, last_error := some "old",
    status_q := true, logs_q := true, current_params := some pEx }

/-- An idle controller state carrying a leftover error. -/
def sIdleErr : MacroState :=
  { proc := none, started_at := none, last_error := some "previous failure",
    status_q := false, logs_q := false, current_params := none }

/-- A `start` observation in which the pre-check finds the recorded process
alive. -/
def wAlive : StartWorld :=
  { preAlive := true, preDrained := [], newPid := 9, now := 50,
    firstMsg := none, postAlive := true, postDrained := [], deadExit := 0 }

/-- A `start` observation from idle: the spawned process sends nothing within
the 8 s wait and is found dead with OS exit code 1. -/
def wC3 : StartWorld :=
  { preAlive := false, preDrained := [], newPid := 42, now := 100,
    firstMsg := none, postAlive := false, postDrained := [], deadExit := 1 }

/-- The run-state shape on any transition to idle: an absent handle means
`started_at`, both queue references and `current_params` are cleared too. -/
def ClearedInv (s : MacroState) : Prop :=
  s.proc = none →
    s.started_at = none ∧ s.status_q = false ∧ s.logs_q = false ∧
      s.current_params = none

/-! ## Helper lemmas -/

lemma clearedInv_clearRun (s : MacroState) : ClearedInv (clearRun s) := by
  simp [ClearedInv, clearRun]

lemma clearedInv_runningCheck (alive : Bool) (drained : List StatusMsg)
    (s : MacroState) (hs : ClearedInv s) :
    ClearedInv (runningCheck alive drained s).2 := by
  cases hp : s.proc with
  | none => simpa [runningCheck, hp] using hs
  | some p =>
      cases alive with
      | true => simpa [runningCheck, hp] using hs
      | false =>
          simp only [runningCheck, hp]
          exact clearedInv_clearRun _

lemma clearedInv_stop (s : MacroState) (hs : ClearedInv s) :
    ClearedInv (stop s).2 := by
  cases hp : s.proc with
  | none => simpa [stop, hp] using hs
  | some p =>
      simp only [stop, hp]
      exact clearedInv_clearRun _

lemma clearedInv_refreshFold (alive : Bool) (msgs : List StatusMsg) :
    ∀ sa : MacroState × List Action, ClearedInv sa.1 →
      ClearedInv ((msgs.foldl (refreshStep alive) sa).1) := by
  induction msgs with
  | nil => intro sa h; exact h
  | cons m ms ih =>
      intro sa h
      refine ih _ ?_
      cases m with
      | error msg =>
          simp only [refreshStep]
          exact clearedInv_clearRun _
      | finished =>
          simp only [refreshStep]
          exact clearedInv_clearRun _
      | other => simpa [refreshStep] using h

lemma clearedInv_refresh (alive : Bool) (drained : List StatusMsg)
    (s : MacroState) (hs : ClearedInv s) :
    ClearedInv (refresh alive drained s).1 := by
  unfold refresh
  split_ifs with h1 h2 h3
  · exact clearedInv_clearRun _
  · exact hs
  · exact clearedInv_refreshFold alive drained (s, []) hs
  · exact hs

lemma clearedInv_start (params : Params) (w : StartWorld) (s : MacroState)
    (hs : ClearedInv s) : ClearedInv (start params w s).2 := by
  have hr := clearedInv_runningCheck w.preAlive w.preDrained s hs
  rcases hrc : runningCheck w.preAlive w.preDrained s with ⟨b, s1⟩
  rw [hrc] at hr
  cases b with
  | true => simpa [start, hrc] using hr
  | false =>
      cases hm : w.firstMsg with
      | none =>
          cases hpa : w.postAlive with
          | true =>
              simp only [start, hrc, hm]
              simp [runningCheck, hpa, ClearedInv]
          | false =>
              simp only [start, hrc, hm]
              simp [runningCheck, hpa, ClearedInv, clearRun]
      | some msg =>
          cases msg with
          | error m =>
              simp only [start, hrc, hm]
              simp [clearedInv_clearRun]
          | finished =>
              simp only [start, hrc, hm]
              simp [clearedInv_clearRun]
          | other =>
              simp only [start, hrc, hm]
              simp [ClearedInv]

lemma takeLast_append_absorb (n : Nat) (x y : List α) :
    takeLast n (takeLast n x ++ y) = takeLast n (x ++ y) := by
  simp only [takeLast, List.reverse_append, List.reverse_reverse]
  rw [List.take_append_eq_append_take, List.take_append_eq_append_take,
    List.take_take, Nat.min_eq_left (Nat.sub_le _ _)]

lemma foldl_dequeAppend (n : Nat) (l : String) (ls init : List String) :
    (l :: ls).foldl (dequeAppendMax n) init = takeLast n (init ++ l :: ls) := by
  induction ls generalizing l init with
  | nil => rfl
  | cons l2 ls ih =>
      calc (l :: l2 :: ls).foldl (dequeAppendMax n) init
          = (l2 :: ls).foldl (dequeAppendMax n) (dequeAppendMax n init l) := rfl
        _ = takeLast n (takeLast n (init ++ [l]) ++ l2 :: ls) := ih l2 _
        _ = takeLast n ((init ++ [l]) ++ l2 :: ls) := takeLast_append_absorb ..
        _ = takeLast n (init ++ l :: l2 :: ls) := by simp

lemma takeLast_append_right (n : Nat) (x y : List α) (h : n ≤ y.length) :
    takeLast n (x ++ y) = takeLast n y := by
  simp only [takeLast, List.reverse_append]
  rw [List.take_append_of_le_length (by simpa using h)]

lemma takeLast_eq_drop (n : Nat) (l : List α) :
    takeLast n l = l.drop (l.length - n) := by
  rw [takeLast, ← List.rtake_eq_reverse_take_reverse, List.rtake]

lemma pyStripList_append_ws (x w : List Char)
    (h : ∀ c ∈ w, isPySpace c = true) :
    pyStripList (x ++ w) = pyStripList x := by
  unfold pyStripList
  rw [List.dropWhile_append]
  by_cases hx : (x.dropWhile isPySpace).isEmpty = true
  · have hw : w.dropWhile isPySpace = [] := List.dropWhile_eq_nil_iff.2 h
    have hx' : x.dropWhile isPySpace = [] := by simpa using hx
    simp [hx, hw, hx']
  · rw [if_neg hx, List.reverse_append,
      List.dropWhile_append_of_pos
        (fun c hc => h c (List.mem_reverse.1 hc))]

lemma pyStrip_append_ws (s t : String) (h : ∀ c ∈ t.data, isPySpace c = true) :
    pyStrip (s ++ t) = pyStrip s := by
  unfold pyStrip
  rw [String.data_append, pyStripList_append_ws _ _ h]

lemma all_ws_of_pyStrip_empty (b : String) (h : pyStrip b = "") :
    ∀ c ∈ b.data, isPySpace c = true := by
  have hd : pyStripList b.data = [] := by
    have := congrArg String.data h
    simpa [pyStrip] using this
  unfold pyStripList at hd
  rw [List.reverse_eq_nil_iff] at hd
  have h2 := List.dropWhile_eq_nil_iff.1 hd
  intro c hc
  have hsplit : b.data.takeWhile isPySpace ++ b.data.dropWhile isPySpace
      = b.data := List.takeWhile_append_dropWhile isPySpace b.data
  rw [← hsplit] at hc
  rcases List.mem_append.1 hc with h1 | h1
  · exact List.mem_takeWhile_imp h1
  · exact h2 c (List.mem_reverse.2 h1)

lemma joinNl_concat (P : List String) (b : String) (hP : P ≠ []) :
    joinNl (P ++ [b]) = joinNl P ++ ("\n" ++ b) := by
  induction P with
  | nil => simp at hP
  | cons p P ih =>
      cases P with
      | nil => simp [joinNl, String.append_assoc]
      | cons p2 P2 =>
          show p ++ "\n" ++ joinNl ((p2 :: P2) ++ [b]) =
            (p ++ "\n" ++ joinNl (p2 :: P2)) ++ ("\n" ++ b)
          rw [ih (by simp)]
          simp [String.append_assoc]

lemma pyStrip_joinNl_concat_blank (P : List String) (b : String)
    (hb : pyStrip b = "") :
    pyStrip (joinNl (P ++ [b])) = pyStrip (joinNl P) := by
  cases P with
  | nil =>
      show pyStrip b = pyStrip ""
      rw [hb]
      decide
  | cons p P2 =>
      rw [joinNl_concat _ _ (by simp)]
      refine pyStrip_append_ws _ _ ?_
      intro c hc
      rw [String.data_append] at hc
      rcases List.mem_append.1 hc with h1 | h1
      · have : c = '\n' := by simpa using h1
        subst this; rfl
      · exact all_ws_of_pyStrip_empty b hb c h1

lemma dropTrailingBlank_eq_rdropWhile (lines : List String) :
    dropTrailingBlank lines = lines.rdropWhile (fun l => pyStrip l = "") := rfl

lemma pyStrip_joinNl_dropTrailingBlank (pre : List String) :
    pyStrip (joinNl (dropTrailingBlank pre)) = pyStrip (joinNl pre) := by
  induction pre using List.reverseRecOn with
  | nil => rfl
  | append_singleton P b ih =>
      rw [dropTrailingBlank_eq_rdropWhile, List.rdropWhile_concat]
      by_cases hb : pyStrip b = ""
      · rw [if_pos (by simpa using hb), ← dropTrailingBlank_eq_rdropWhile, ih,
          pyStrip_joinNl_concat_blank P b hb]
      · rw [if_neg (by simpa using hb)]

lemma stop_lastError (s : MacroState) :
    (stop s).2.last_error = s.last_error := by
  cases hp : s.proc <;> simp [stop, hp, clearRun]

lemma refresh_noDrain_lastError (alive : Bool) (s : MacroState) :
    (refresh alive [] s).1.last_error = s.last_error := by
  unfold refresh
  split_ifs <;> simp [clearRun]

lemma lastError_isSome_drainFold (msgs : List StatusMsg) :
    ∀ s : MacroState, s.last_error.isSome →
      ((msgs.foldl drainOnDeadStep s).last_error).isSome := by
  induction msgs with
  | nil => intro s h; exact h
  | cons m ms ih =>
      intro s h
      refine ih _ ?_
      cases m with
      | error msg => simp [drainOnDeadStep]
      | finished => simpa [drainOnDeadStep] using h
      | other => simpa [drainOnDeadStep] using h

lemma lastError_isSome_refreshFold (alive : Bool) (msgs : List StatusMsg) :
    ∀ sa : MacroState × List Action, sa.1.last_error.isSome →
      (((msgs.foldl (refreshStep alive) sa).1).last_error).isSome := by
  induction msgs with
  | nil => intro sa h; exact h
  | cons m ms ih =>
      intro sa h
      refine ih _ ?_
      cases m with
      | error msg => simp [refreshStep, clearRun]
      | finished => simpa [refreshStep, clearRun] using h
      | other => simpa [refreshStep] using h

lemma lastError_isSome_runningCheck (alive : Bool) (drained : List StatusMsg)
    (s : MacroState) (h : s.last_error.isSome) :
    ((runningCheck alive drained s).2.last_error).isSome := by
  cases hp : s.proc with
  | none => simpa [runningCheck, hp] using h
  | some p =>
      cases alive with
      | true => simpa [runningCheck, hp] using h
      | false =>
          cases hq : s.status_q with
          | false => simpa [runningCheck, hp, hq, clearRun] using h
          | true =>
              simpa [runningCheck, hp, hq, clearRun] using
                lastError_isSome_drainFold drained s h

lemma lastError_isSome_refresh (alive : Bool) (drained : List StatusMsg)
    (s : MacroState) (h : s.last_error.isSome) :
    ((refresh alive drained s).1.last_error).isSome := by
  unfold refresh
  split_ifs with h1 h2 h3
  · simpa [clearRun] using lastError_isSome_drainFold drained s h
  · exact h
  · exact lastError_isSome_refreshFold alive drained (s, []) h
  · exact h

/-! ## Theorems -/

/-- C1 (single-flight): whenever the controller records a process handle and
that process is observed alive, `start` returns failure and the state —
handle, `started_at`, `current_params`, `last_error` and both queue
references — is returned exactly as it was. -/
theorem start_single_flight (s : MacroState) (p : ProcHandle) (params : Params)
    (w : StartWorld) (hp : s.proc = some p) (ha : w.preAlive = true) :
    start params w s = (false, s) := by
  simp [start, runningCheck, hp, ha]

/-- Witness for C1 at a concrete running state. -/
theorem start_single_flight_witness :
    start pEx wAlive sRun = (false, sRun) :=
  start_single_flight sRun ⟨7⟩ pEx wAlive rfl rfl

/-- C2 counterexample: the claim says a `refresh` that drains a `finished`
message while the process is still alive defers the transition (no
termination, no state clearing). At a concrete running state the code
terminates the live process and clears the run state. -/
theorem refresh_finished_alive_counterexample :
    (refresh true [StatusMsg.finished] sRun).1.proc = none ∧
    (refresh true [StatusMsg.finished] sRun).2 = [Action.terminate 7] := by
  decide

/-- C2 (amended): on draining a `finished` status message, `refresh` clears
the run state unconditionally — if the process is still alive it is
force-terminated first rather than deferred; `last_error` is untouched. -/
theorem refresh_finished_clears (s : MacroState) (p : ProcHandle) (alive : Bool)
    (hp : s.proc = some p) (hq : s.status_q = true) (hl : s.logs_q = true) :
    refresh alive [StatusMsg.finished] s =
      (clearRun s, if alive then [Action.terminate p.pid] else []) := by
  cases alive <;>
    simp [refresh, refreshStep, drainOnDeadStep, hp, hq, hl]

/-- Witness for the amended C2 at a concrete running state. -/
theorem refresh_finished_clears_witness :
    refresh true [StatusMsg.finished] sRun =
      (clearRun sRun, if true then [Action.terminate 7] else []) :=
  refresh_finished_clears sRun ⟨7⟩ true rfl rfl rfl

/-- C3 (failing input evaluated): an idle controller starts a worker that dies
with OS exit code 1 without ever sending a status message; the 8 s wait times
out. `start` returns failure, but the synthesized `last_error` reads
`exitcode=None` instead of containing the exit code 1, because the `running`
self-heal already cleared `self.proc` before `exitcode` is read. -/
theorem start_timeout_dead_exitcode_none :
    wC3.deadExit = 1 ∧
    (start pEx wC3 initState).1 = false ∧
    (start pEx wC3 initState).2.last_error =
      some "프로세스가 즉시 종료되었습니다. exitcode=None" := by
  decide

/-- C8 (idempotent stop): `stop` on a controller with no recorded process
handle returns failure and leaves the state — and, `stop` never referencing
the log buffer, the buffer too — completely unchanged. -/
theorem stop_idle_noop (s : MacroState) (h : s.proc = none) :
    stop s = (false, s) := by
  simp [stop, h]

/-- Witness for C8 at a concrete idle state with a leftover error. -/
theorem stop_idle_noop_witness :
    stop sIdleErr = (false, sIdleErr) :=
  stop_idle_noop sIdleErr rfl

/-- C9 (subscriber isolation): a broadcast appends the line to the ring buffer
and treats every subscriber independently: position by position, a full queue
drops exactly its own copy of this one message and keeps its content, every
non-full queue receives the line, and the buffer append happens regardless. -/
theorem append_log_subscriber_isolation (st : LogState) (line : String) :
    (append_log st line).log_buffer
        = dequeAppendMax LOG_BUFFER_MAXLEN st.log_buffer line ∧
    ∀ i : Nat, (append_log st line).listeners[i]? =
      (st.listeners[i]?).map
        (fun q => if q.length < SUBSCRIBER_MAXSIZE then q ++ [line] else q) := by
  refine ⟨rfl, fun i => ?_⟩
  simp [append_log, safe_put, List.getElem?_map]

/-- C4 (state-clear atomicity): every controller operation preserves the
invariant that an absent handle comes with `started_at`, both queue
references and `current_params` cleared — each transition to idle clears the
run fields as a unit — while the clearing itself leaves `last_error`
untouched: `stop` preserves it exactly, and so does a `refresh` that drains
no message. -/
theorem state_clear_atomicity (s : MacroState) (params : Params)
    (w : StartWorld) (alive : Bool) (drained : List StatusMsg)
    (hs : ClearedInv s) :
    ClearedInv (runningCheck alive drained s).2 ∧
    ClearedInv (start params w s).2 ∧
    ClearedInv (stop s).2 ∧
    ClearedInv (refresh alive drained s).1 ∧
    (stop s).2.last_error = s.last_error ∧
    (refresh alive [] s).1.last_error = s.last_error :=
  ⟨clearedInv_runningCheck alive drained s hs, clearedInv_start params w s hs,
   clearedInv_stop s hs, clearedInv_refresh alive drained s hs,
   stop_lastError s, refresh_noDrain_lastError alive s⟩

/-- Witness for C4 at a concrete running state, a dead-process observation
and a drained `finished` message. -/
theorem state_clear_atomicity_witness :
    ClearedInv (runningCheck false [StatusMsg.finished] sRun).2 ∧
    ClearedInv (start pEx wC3 sRun).2 ∧
    ClearedInv (stop sRun).2 ∧
    ClearedInv (refresh false [StatusMsg.finished] sRun).1 ∧
    (stop sRun).2.last_error = sRun.last_error ∧
    (refresh false [] sRun).1.last_error = sRun.last_error :=
  state_clear_atomicity sRun pEx wC3 false [StatusMsg.finished]
    (by intro h; simp [sRun] at h)

/-- C5 counterexample: the claim characterises the cleaned message as exactly
the lines preceding the first marker line with only trailing blank lines
trimmed; on `" Boom\nTraceback x"` that reading gives `" Boom"`, but the code
also strips the surrounding whitespace and returns `"Boom"`. -/
theorem clean_error_message_counterexample :
    clean_error_message " Boom\nTraceback x" = "Boom" ∧
    clean_error_message_claimed " Boom\nTraceback x" = " Boom" ∧
    clean_error_message " Boom\nTraceback x" ≠
      clean_error_message_claimed " Boom\nTraceback x" := by
  decide

/-- C5 (amended): for every raw text, the cleaned message equals the text
preceding the first diagnostic-marker line stripped of leading and trailing
whitespace (which subsumes trimming trailing blank lines); when nothing
remains the non-empty generic fallback is returned, so the result is never
empty; in particular cleaning `"Boom\nTraceback...\nFile ..."` yields
`"Boom"`. -/
theorem clean_error_message_spec (msg : String) :
    (clean_error_message msg =
      (if pyStrip (joinNl ((pySplitNl msg).takeWhile
            (fun l => !isTracebackLine l))) = ""
       then FALLBACK_ERROR
       else pyStrip (joinNl ((pySplitNl msg).takeWhile
            (fun l => !isTracebackLine l))))) ∧
    clean_error_message msg ≠ "" ∧
    clean_error_message "Boom\nTraceback...\nFile ..." = "Boom" := by
  refine ⟨?_, ?_, by decide⟩
  · simp only [clean_error_message]
    rw [pyStrip_joinNl_dropTrailingBlank]
  · simp only [clean_error_message]
    split_ifs with h
    · decide
    · exact h

/-- C6 (buffer bound): appending more than 500 lines through the log pump
leaves the ring buffer holding exactly the last 500 of them, in emission
order, whatever it held before — in particular, pumping
`"line-0" .. "line-500"` leaves exactly `"line-1" .. "line-500"`. -/
theorem log_buffer_bound (init ls : List String)
    (h : LOG_BUFFER_MAXLEN < ls.length) :
    ls.foldl (dequeAppendMax LOG_BUFFER_MAXLEN) init =
      ls.drop (ls.length - LOG_BUFFER_MAXLEN) := by
  cases ls with
  | nil => simp at h
  | cons l ls =>
      rw [foldl_dequeAppend, takeLast_append_right _ _ _ (le_of_lt h),
        takeLast_eq_drop]

/-- Witness for C6: the 501 lines `"line-0" .. "line-500"` leave the buffer
holding the last 500 of them. -/
theorem log_buffer_bound_witness :
    ((List.range 501).map (fun i => "line-" ++ toString i)).foldl
        (dequeAppendMax LOG_BUFFER_MAXLEN) [] =
      ((List.range 501).map (fun i => "line-" ++ toString i)).drop
        (((List.range 501).map (fun i => "line-" ++ toString i)).length -
          LOG_BUFFER_MAXLEN) :=
  log_buffer_bound [] _ (by simp [LOG_BUFFER_MAXLEN])

/-- C7 (last_error persistence): `stop` — including its no-op path on an idle
controller — never touches `last_error`, and the non-blocking polls
(`running`, `refresh`, and the `/status` endpoint, which composes them)
never reset a present `last_error` to none: they may overwrite it with a
newer error but never clear it. -/
theorem last_error_persists (s : MacroState) (alive ralive : Bool)
    (drained rdrained : List StatusMsg) (h : s.last_error.isSome) :
    (stop s).2.last_error = s.last_error ∧
    ((runningCheck alive drained s).2.last_error).isSome ∧
    ((refresh alive drained s).1.last_error).isSome ∧
    ((statusCall alive drained ralive rdrained s).2.last_error).isSome := by
  refine ⟨stop_lastError s, lastError_isSome_runningCheck alive drained s h,
    lastError_isSome_refresh alive drained s h, ?_⟩
  simp only [statusCall]
  exact lastError_isSome_runningCheck ralive rdrained _
    (lastError_isSome_refresh alive drained s h)

/-- Witness for C7 at a concrete idle state carrying a leftover error. -/
theorem last_error_persists_witness :
    (stop sIdleErr).2.last_error = sIdleErr.last_error ∧
    ((runningCheck true [] sIdleErr).2.last_error).isSome ∧
    ((refresh true [] sIdleErr).1.last_error).isSome ∧
    ((statusCall true [] true [] sIdleErr).2.last_error).isSome :=
  last_error_persists sIdleErr true true [] [] (by decide)

/-- C10 (no blank log lines): starting from a fresh stream redirector, no
sequence of `write` calls ever enqueues an empty line — a lone or repeated
newline is silently discarded. -/
theorem stream_write_never_blank (writes : List String) :
    "" ∉ (writes.foldl streamWrite ⟨"", []⟩).q := by
  have step : ∀ (st : StreamToQueue) (s : String), "" ∉ st.q →
      "" ∉ (streamWrite st s).q := by
    intro st s h hmem
    rcases List.mem_append.1 hmem with h1 | h2
    · exact h h1
    · have := (List.mem_filter.1 h2).2
      simp at this
  have key : ∀ (ws : List String) (st : StreamToQueue), "" ∉ st.q →
      "" ∉ (ws.foldl streamWrite st).q := by
    intro ws
    induction ws with
    | nil => intro st h; exact h
    | cons w ws ih => intro st h; exact ih _ (step st w h)
  exact key writes ⟨"", []⟩ (by simp)

end SrtMacro
